import Mathlib

/-!
Verification development for the sap-contract-agent repository.

The Python source is shallowly embedded: dictionaries become ordered
association lists, Python scalars become the `Value` inductive, `float`
values are modelled as exact rationals, and stateful HTTP clients become
explicit state-passing functions parameterized by the outcome of each
network interaction.
-/

namespace ContractAgent

/-- A Python scalar value as it can appear in a spreadsheet row:
`None`, a string, an `int`, a `float` (modelled as an exact rational;
non-finite floats are outside the model), or a `bool`. -/
inductive Value where
  | vnone
  | vstr (s : String)
  | vint (n : Int)
  | vfloat (q : Rat)
  | vbool (b : Bool)
deriving DecidableEq, Repr

/-- Python `str.strip()` on a character list: drop whitespace from both ends. -/
def pyStripList (l : List Char) : List Char :=
  ((l.dropWhile Char.isWhitespace).reverse.dropWhile Char.isWhitespace).reverse

/-- Python `str.strip()`. -/
def pyStrip (s : String) : String :=
  ⟨pyStripList s.data⟩

/-- Python `str.lower()` (ASCII case folding; all keywords involved are ASCII). -/
def pyLower (s : String) : String :=
  ⟨s.data.map Char.toLower⟩

/-- Value of a decimal digit list read left to right. -/
def digitsToNat (l : List Char) : Nat :=
  l.foldl (fun a c => a * 10 + (c.toNat - 48)) 0

/-- Parse an unsigned decimal mantissa: `digits`, `digits.`, `digits.digits`
or `.digits`. Returns the mantissa digits' value, the number of fractional
digits, and the unconsumed rest. -/
def parseMantissa (cs : List Char) : Option (Nat × Nat × List Char) :=
  let p := cs.span Char.isDigit
  match p.2 with
  | '.' :: rest2 =>
      let q := rest2.span Char.isDigit
      if p.1.isEmpty ∧ q.1.isEmpty then none
      else some (digitsToNat (p.1 ++ q.1), q.1.length, q.2)
  | _ => if p.1.isEmpty then none else some (digitsToNat p.1, 0, p.2)

/-- Consume an optional exponent suffix `e[±]digits`; anything else left over
makes the parse fail, matching Python `float()`. -/
def parseExp : List Char → Option Int
  | [] => some 0
  | c :: rest =>
      if c = 'e' ∨ c = 'E' then
        let sr : Int × List Char :=
          match rest with
          | '+' :: r => (1, r)
          | '-' :: r => (-1, r)
          | r => (1, r)
        let ds := sr.2.span Char.isDigit
        if ds.1.isEmpty ∨ ¬ ds.2.isEmpty then none
        else some (sr.1 * (digitsToNat ds.1 : Int))
      else none

/-- Python `float(s)` on the finite-literal grammar (optional sign, decimal
mantissa, optional exponent; surrounding whitespace ignored). `inf`/`nan`
literals are outside the model; the result is the literal's exact rational
value, assembled as a single integer fraction. -/
def pyFloat (s : String) : Option Rat :=
  let cs := pyStripList s.data
  let sc : Int × List Char :=
    match cs with
    | '+' :: r => (1, r)
    | '-' :: r => (-1, r)
    | r => (1, r)
  match parseMantissa sc.2 with
  | none => none
  | some (m, fracLen, rest) =>
      match parseExp rest with
      | none => none
      | some e =>
          let eAdj : Int := e - (fracLen : Int)
          if 0 ≤ eAdj then some (Rat.divInt (sc.1 * (m : Int) * (10 : Int) ^ eAdj.toNat) 1)
          else some (Rat.divInt (sc.1 * (m : Int)) ((10 : Int) ^ (-eAdj).toNat))

/-- Python `str.replace(old, '')` for a single character. -/
def eraseChar (c : Char) (s : String) : String :=
  ⟨s.data.filter (fun x => x ≠ c)⟩

/-- `service.py`: strip thousands-separator commas and the currency symbols
from the parse candidate. -/
def stripCommasCurrency (s : String) : String :=
  eraseChar '£' (eraseChar '€' (eraseChar '$' (eraseChar ',' s)))

/-- Decimal rendering of a natural number. -/
def natRepr (n : Nat) : String := ⟨Nat.toDigits 10 n⟩

/-- Python `str` of an int. -/
def intRepr (n : Int) : String :=
  if n < 0 then "-" ++ natRepr n.natAbs else natRepr n.natAbs

/-- Exact rational addition computed on numerator and denominator, so that
concrete instances reduce inside the kernel; `ratAdd_eq` certifies it
against Mathlib's addition. -/
def ratAdd (a b : Rat) : Rat :=
  Rat.divInt (a.num * (b.den : Int) + b.num * (a.den : Int)) ((a.den : Int) * (b.den : Int))

/-- Exact rational subtraction computed on numerator and denominator. -/
def ratSub (a b : Rat) : Rat :=
  Rat.divInt (a.num * (b.den : Int) - b.num * (a.den : Int)) ((a.den : Int) * (b.den : Int))

/-- Exact rational comparison computed on numerator and denominator. -/
def ratLt (a b : Rat) : Bool :=
  a.num * (b.den : Int) < b.num * (a.den : Int)

/-- Python `str` of a float, modelled on exact rationals: integral values
render as `n.0`; other values render their exact numerator/denominator.
Like Python's decimal rendering, the result contains only digits, a sign
and separator characters — never letters of a keyword or a currency symbol. -/
def floatRepr (q : Rat) : String :=
  if q.den = 1 then intRepr q.num ++ ".0" else intRepr q.num ++ "/" ++ natRepr q.den

/-- Python `str(value)` for the modelled scalars. -/
def pyStr (v : Value) : String :=
  match v with
  | .vnone => "None"
  | .vstr s => s
  | .vint n => intRepr n
  | .vfloat q => floatRepr q
  | .vbool b => if b then "True" else "False"

/-- `clean_cell` from `service.py`: blank input becomes the empty string;
a string is trimmed, then parsed numerically after dropping commas and
currency symbols (whole numbers become ints, other parses floats, failed
parses return the trimmed string); other scalars pass through unchanged. -/
def clean_cell (v : Value) : Value :=
  match v with
  | .vnone => .vstr ""
  | .vstr s =>
      let stripped := pyStrip s
      if stripped = "" then .vstr ""
      else
        match pyFloat (stripCommasCurrency stripped) with
        | some q => if q.den = 1 then .vint q.num else .vfloat q
        | none => .vstr stripped
  | v => v

/-- A spreadsheet row: an ordered mapping from column name to raw value. -/
abbrev Row : Type := List (String × Value)

/-- Python dict assignment `d[k] = v` on an ordered association list:
overwrite in place if the key exists, else append. -/
def dictInsert (k : String) (v : Value) : List (String × Value) → List (String × Value)
  | [] => [(k, v)]
  | kv :: rest => if kv.1 = k then (kv.1, v) :: rest else kv :: dictInsert k v rest

/-- `service.py`: `str(key).strip() if key else "column"` — only a falsy
(empty) key defaults to `column`; other keys are trimmed. -/
def keyName (k : String) : String :=
  if k = "" then "column" else pyStrip k

/-- A cleaned value that `normalize_fields` drops: `cleaned in ("", None)`. -/
def isDropped (v : Value) : Bool :=
  v = Value.vstr "" ∨ v = Value.vnone

/-- The accumulation loop of `normalize_fields`. -/
def normalizeLoop : List (String × Value) → Row → List (String × Value)
  | acc, [] => acc
  | acc, kv :: rest =>
      if isDropped (clean_cell kv.2) then normalizeLoop acc rest
      else normalizeLoop (dictInsert (keyName kv.1) (clean_cell kv.2) acc) rest

/-- `normalize_fields` from `service.py`: clean every field, drop blank
results, rename falsy keys to `column`. -/
def normalize_fields (row : Row) : List (String × Value) :=
  normalizeLoop [] row

/-- Python `isinstance(value, (int, float))`; note `bool` is an `int`
subtype in Python, so booleans count as numeric. -/
def is_numeric (v : Value) : Bool :=
  match v with
  | .vint _ => true
  | .vfloat _ => true
  | .vbool _ => true
  | _ => false

/-- Whether the first character list is an initial segment of the second. -/
def listStartsWith (needle hay : List Char) : Bool :=
  match needle with
  | [] => true
  | a :: as =>
      match hay with
      | [] => false
      | b :: bs => a == b && listStartsWith as bs

/-- Substring occurrence test on character lists. -/
def listIsSub (needle : List Char) : List Char → Bool
  | [] => listStartsWith needle []
  | c :: t => listStartsWith needle (c :: t) || listIsSub needle t

/-- Python `needle in hay` for strings. -/
def strContains (needle hay : String) : Bool :=
  listIsSub needle.data hay.data

/-- The amount keywords of `service.py`. -/
def amount_keywords : List String :=
  ["amount", "qty", "quantity", "total", "price", "fee", "charge", "rate", "cost", "value", "tax", "duty"]

/-- The currency symbols of `service.py`. -/
def currency_symbols : List String := ["$", "€", "£"]

/-- Signal (1): some field key contains an amount keyword
(`keyword_in_keys` of `classify_row`). -/
def keywordKeySignal (fields : List (String × Value)) : Bool :=
  fields.any (fun kv => amount_keywords.any (fun kw => strContains kw (pyLower kv.1)))

/-- Signal (2): some field value, rendered as a string, contains an amount
keyword (`keyword_in_values` of `classify_row`). -/
def keywordValueSignal (fields : List (String × Value)) : Bool :=
  fields.any (fun kv => amount_keywords.any (fun kw => strContains kw (pyLower (pyStr kv.2))))

/-- Signal (3): some field value, rendered as a string, contains a currency
symbol (`has_currency_symbol` of `classify_row`). -/
def currencySignal (fields : List (String × Value)) : Bool :=
  fields.any (fun kv => currency_symbols.any (fun sym => strContains sym (pyStr kv.2)))

/-- `classify_row` from `service.py`: normalized-empty rows are `empty`;
rows with no numeric normalized value are `metadata`; a currency symbol,
an amount keyword in a normalized key or value, or at least two numeric
values make a `charge`; anything else is a `possible_charge`. -/
def classify_row (row : Row) : String :=
  let normalized := normalize_fields row
  if normalized = [] then "empty"
  else
    let numeric_values := (normalized.map Prod.snd).filter is_numeric
    if numeric_values = [] then "metadata"
    else if currencySignal normalized || keywordKeySignal normalized || keywordValueSignal normalized
         || numeric_values.length ≥ 2 then "charge"
    else "possible_charge"

/-- Number of numeric-valued normalized fields of a row. -/
def numericFieldCount (row : Row) : Nat :=
  ((normalize_fields row).filter (fun kv => is_numeric kv.2)).length

/-- The spec's ordered decision rule with all three signals computed over
the *normalized* fields (the reading the code implements). -/
def specClassifyNormalized (row : Row) : String :=
  let nf := normalize_fields row
  if nf.isEmpty then "empty"
  else if numericFieldCount row = 0 then "metadata"
  else if keywordKeySignal nf || keywordValueSignal nf || currencySignal nf
       || 2 ≤ numericFieldCount row then "charge"
  else "possible_charge"

/-- The spec's ordered decision rule exactly as the claim words it: the
signals are computed over the *original* row's keys and values. -/
def specClassifyOriginal (row : Row) : String :=
  let nf := normalize_fields row
  if nf.isEmpty then "empty"
  else if numericFieldCount row = 0 then "metadata"
  else if keywordKeySignal row || keywordValueSignal row || currencySignal row
       || 2 ≤ numericFieldCount row then "charge"
  else "possible_charge"

/-- No keyword or currency signal fires on the normalized fields. -/
def noSignal (row : Row) : Bool :=
  !(keywordKeySignal (normalize_fields row) || keywordValueSignal (normalize_fields row)
    || currencySignal (normalize_fields row))

/-! ### SummaryBuilder: `_contract_summary` and `_invoice_summary` -/

/-- One parsed contract element as `_contract_summary` consumes it:
`element.get("type")`, `element.get("text")` and the page number found at
`element.get("metadata", {}).get("page_number")`. -/
structure RawElement where
  etype : Option String
  text : Option String
  pageNumber : Option Int
deriving DecidableEq, Repr

/-- The payload shape produced by the PDF parsing collaborator. A list
entry `none` models a falsy element (`element or {}`). -/
structure ContractPayload where
  sourceFile : Option String
  elementCount : Nat
  elements : List (Option RawElement)
deriving DecidableEq, Repr

/-- One clause entry of the contract summary. -/
structure Clause where
  index : Nat
  ctype : Option String
  text : String
  pageNumber : Option Int
  sectionName : Option String
deriving DecidableEq, Repr

/-- Python slicing `s[:n]`. -/
def strTake (n : Nat) (s : String) : String := ⟨s.data.take n⟩

/-- Build one clause entry from element number `idx`. -/
def mkClause (idx : Nat) (e : Option RawElement) (textValue : String) : Clause :=
  { index := idx
    ctype := e.bind (fun x => x.etype)
    text := strTake 1200 textValue
    pageNumber := e.bind (fun x => x.pageNumber)
    sectionName := e.bind (fun x => x.etype) }

/-- `(item.get("text") or "").strip()` of one element. -/
def clauseText (e : Option RawElement) : String :=
  pyStrip ((e.bind (fun x => x.text)).getD "")

/-- One iteration of the `_contract_summary` loop body: append a clause when
the stripped text is non-blank. -/
def clauseStep (idx : Nat) (e : Option RawElement) (acc : List Clause) : List Clause :=
  if clauseText e ≠ "" then acc ++ [mkClause idx e (clauseText e)] else acc

/-- The accumulation loop of `_contract_summary`: skip blank texts, stop as
soon as 40 clauses were collected. -/
def clauseLoop : List (Option RawElement) → Nat → List Clause → List Clause
  | [], _, acc => acc
  | e :: rest, idx, acc =>
      if 40 ≤ (clauseStep idx e acc).length then clauseStep idx e acc
      else clauseLoop rest (idx + 1) (clauseStep idx e acc)

/-- The contract summary record emitted by `_contract_summary`. -/
structure ContractSummary where
  sourceFile : Option String
  segmentCount : Nat
  clauses : List Clause
deriving DecidableEq, Repr

/-- `_contract_summary` from `service.py`. -/
def contract_summary (p : ContractPayload) : ContractSummary :=
  { sourceFile := p.sourceFile
    segmentCount := p.elementCount
    clauses := clauseLoop p.elements 1 [] }

/-- One sheet of the parsed workbook: its column list and its rows
(`data.get("rows") or []` and `data.get("columns", [])` already applied). -/
structure SheetData where
  columns : List String
  rows : List Row

/-- The payload shape produced by the spreadsheet parsing collaborator. -/
structure InvoicePayload where
  sourceFile : Option String
  sheets : List (String × SheetData)

/-- A charge-list entry of the invoice summary. -/
structure ChargeItem where
  sheet : String
  lineNumber : Nat
  category : String
  fields : List (String × Value)
  compact : Option String
  numericFields : List (String × Value)
deriving DecidableEq, Repr

/-- A metadata-preview entry of the invoice summary. -/
structure MetaItem where
  sheet : String
  lineNumber : Nat
  text : String
deriving DecidableEq, Repr

/-- The `compact` rendering: `"key: value"` pairs joined by `"; "`, capped
at 400 characters; only present when the normalized fields are non-empty. -/
def mkCompact (nf : List (String × Value)) : Option String :=
  if nf.isEmpty then none
  else some (strTake 400 (String.intercalate "; " (nf.map (fun kv => kv.1 ++ ": " ++ pyStr kv.2))))

/-- 1-based row enumeration, as `enumerate(rows, start=1)`. -/
def enum1 (rows : List Row) : List (Nat × Row) := List.enumFrom 1 rows

/-- Whether a row lands on the charge list (`category in {"charge",
"possible_charge"}`). -/
def isChargeRow (row : Row) : Bool :=
  decide (classify_row row = "charge" ∨ classify_row row = "possible_charge")

/-- Whether a row lands on the metadata preview. -/
def isMetadataRow (row : Row) : Bool :=
  decide (classify_row row = "metadata")

/-- The charge entry built for one row. -/
def mkChargeItem (name : String) (idx : Nat) (row : Row) : ChargeItem :=
  { sheet := name
    lineNumber := idx
    category := classify_row row
    fields := normalize_fields row
    compact := mkCompact (normalize_fields row)
    numericFields := (normalize_fields row).filter (fun kv => is_numeric kv.2) }

/-- The metadata entry built for one row; only `sheet`, `line_number` and
the compact text are kept. -/
def mkMetaItem (name : String) (idx : Nat) (row : Row) : MetaItem :=
  { sheet := name, lineNumber := idx, text := (mkCompact (normalize_fields row)).getD "" }

/-- The charge entries one sheet contributes, in row order. -/
def sheetChargeItems (name : String) (rows : List Row) : List ChargeItem :=
  (enum1 rows).filterMap (fun p =>
    if isChargeRow p.2 then some (mkChargeItem name p.1 p.2) else none)

/-- The metadata entries one sheet contributes, in row order. -/
def sheetMetaItems (name : String) (rows : List Row) : List MetaItem :=
  (enum1 rows).filterMap (fun p =>
    if isMetadataRow p.2 then some (mkMetaItem name p.1 p.2) else none)

/-- All accumulated charge entries, across sheets in order. -/
def chargeItemsAll (p : InvoicePayload) : List ChargeItem :=
  p.sheets.flatMap (fun s => sheetChargeItems s.1 s.2.rows)

/-- All accumulated metadata entries, across sheets in order. -/
def metaItemsAll (p : InvoicePayload) : List MetaItem :=
  p.sheets.flatMap (fun s => sheetMetaItems s.1 s.2.rows)

/-- The invoice summary record emitted by `_invoice_summary`: counts are
taken before truncation, the emitted lists after. -/
structure InvoiceSummary where
  sourceFile : Option String
  sheetCount : Nat
  totalLineItems : Nat
  chargeItemCount : Nat
  metadataItemCount : Nat
  breakdownCharge : Nat
  breakdownPossible : Nat
  sheetOverview : List (String × Nat × List String)
  chargeItems : List ChargeItem
  metadataPreview : List MetaItem

/-- `_invoice_summary` from `service.py`. -/
def invoice_summary (p : InvoicePayload) : InvoiceSummary :=
  let ci := chargeItemsAll p
  let mi := metaItemsAll p
  { sourceFile := p.sourceFile
    sheetCount := p.sheets.length
    totalLineItems := ci.length + mi.length
    chargeItemCount := ci.length
    metadataItemCount := mi.length
    breakdownCharge := (ci.filter (fun e => e.category = "charge")).length
    breakdownPossible := (ci.filter (fun e => e.category = "possible_charge")).length
    sheetOverview := p.sheets.map (fun s => (s.1, s.2.rows.length, s.2.columns))
    chargeItems := ci.take 160
    metadataPreview := mi.take 40 }

/-- The full pre-truncation tally of rows satisfying `f`, over every sheet. -/
def countRows (p : InvoicePayload) (f : Row → Bool) : Nat :=
  (p.sheets.map (fun s => (s.2.rows.filter f).length)).sum

/-! ### CredentialedTransport: `SAPAICoreClient` -/

/-- A retriable error of the client: a `requests.RequestException` raised by
the transport, the client's own `SAPAICoreClientError`, or any other
exception kind (which the retry predicate does not cover). -/
inductive ClientError where
  | requestException (msg : String)
  | aiCoreError (msg : String)
  | otherError (msg : String)
deriving DecidableEq, Repr

/-- The tenacity predicate `retry_if_exception_type((requests.RequestException,
SAPAICoreClientError))`. -/
def retryable : ClientError → Bool
  | .requestException _ => true
  | .aiCoreError _ => true
  | .otherError _ => false

/-- The message object of one choice of a chat-completion response body. -/
structure ChoiceMsg where
  content : Option String
deriving DecidableEq, Repr

/-- One choice of a chat-completion response body. -/
structure Choice where
  message : Option ChoiceMsg
deriving DecidableEq, Repr

/-- An HTTP chat-completion response: status code, body text and the parsed
`choices` field (absent or `null` modelled as `none`). -/
structure ChatResp where
  status : Nat
  text : String
  choices : Option (List Choice)
deriving DecidableEq, Repr

/-- What one `requests.post` interaction produced: a raised transport
exception, or a response. -/
inductive HttpOutcome where
  | exn (msg : String)
  | resp (r : ChatResp)
deriving DecidableEq, Repr

/-- One attempt of the `chat_completion` body: raise on transport failure,
on a 4xx/5xx status (`_raise_for_status`), on an empty `choices` array, and
on missing or empty message content; otherwise return the content. -/
def chatAttempt (o : HttpOutcome) : Except ClientError String :=
  match o with
  | .exn m => .error (.requestException m)
  | .resp r =>
      if 400 ≤ r.status then
        .error (.aiCoreError ("AI Core request failed: " ++ natRepr r.status ++ " " ++ r.text))
      else
        match r.choices.getD [] with
        | [] => .error (.aiCoreError "No choices returned from AI Core")
        | c :: _ =>
            match (c.message.getD { content := none }).content with
            | none => .error (.aiCoreError "Empty response content from AI Core")
            | some s =>
                if s = "" then .error (.aiCoreError "Empty response content from AI Core")
                else .ok s

/-- Whether an attempt result is an error. -/
def isErr (r : Except ClientError String) : Bool :=
  match r with
  | .error _ => true
  | .ok _ => false

/-- The tenacity loop `stop_after_attempt`/`reraise=True`: run attempts until
one succeeds, the error kind is not retryable, or the attempt budget is
exhausted; the last error is re-raised unchanged. Returns the result and the
number of attempts performed. `i` is the index of the current attempt. -/
def retryLoop (f : Nat → Except ClientError String) : Nat → Nat → Except ClientError String × Nat
  | i, 0 => (f i, i + 1)
  | i, budget + 1 =>
      match f i with
      | .ok s => (.ok s, i + 1)
      | .error e =>
          if retryable e ∧ 0 < budget then retryLoop f (i + 1) budget
          else (.error e, i + 1)

/-- `chat_completion` under its `@retry(stop=stop_after_attempt(3),
reraise=True)` decorator, driven by the outcome of each attempt's HTTP
interaction. -/
def chat_completion (outcomes : Nat → HttpOutcome) : Except ClientError String × Nat :=
  retryLoop (fun i => chatAttempt (outcomes i)) 0 3

/-- The token lease state of the client: `_token` and `_token_expiry`. -/
structure TokenState where
  token : Option String
  tokenExpiry : Rat
deriving DecidableEq, Repr

/-- A token-endpoint response: status, body text, and the parsed
`access_token` / `expires_in` fields. -/
structure TokenResp where
  status : Nat
  text : String
  accessToken : Option String
  expiresIn : Option Rat
deriving DecidableEq, Repr

/-- What the token-exchange `requests.post` produced. -/
inductive TokenHttp where
  | exn (msg : String)
  | resp (r : TokenResp)
deriving DecidableEq, Repr

/-- Python truthiness of the stored `_token` (`if self._token`). -/
def tokenTruthy : Option String → Bool
  | none => false
  | some s => s ≠ ""

/-- Whether a result is the client's own authentication error
(`SAPAICoreClientError`). -/
def isAuthError (r : Except ClientError String) : Bool :=
  match r with
  | .error (.aiCoreError _) => true
  | _ => false

/-- `_get_token` from `aicore_client.py`, as a function of the stored state,
the current clock and the outcome of the (at most one) token exchange.
Returns the result, the state after the call, and whether an exchange was
performed. -/
def _get_token (st : TokenState) (now : Rat) (http : TokenHttp) :
    Except ClientError String × TokenState × Bool :=
  if tokenTruthy st.token ∧ ratLt now (ratSub st.tokenExpiry 30) then
    (.ok (st.token.getD ""), st, false)
  else
    match http with
    | .exn m => (.error (.requestException m), st, true)
    | .resp r =>
        if r.status ≠ 200 then
          (.error (.aiCoreError ("Token request failed: " ++ natRepr r.status ++ " " ++ r.text)), st, true)
        else
          match r.accessToken with
          | none => (.error (.aiCoreError "No access token in AI Core response"), st, true)
          | some t =>
              if t = "" then (.error (.aiCoreError "No access token in AI Core response"), st, true)
              else
                (.ok t, { token := some t, tokenExpiry := ratAdd now (r.expiresIn.getD 600) }, true)

/-! ### QualityGate (no implementation under `src/`; modelled from the spec) -/

/-- Count of alphanumeric characters of a string. -/
def alnumCount (s : String) : Nat :=
  (s.data.filter Char.isAlphanum).length

/-- Modelled from the spec: `looks_meaningful(text) -> bool` of the
QualityGate component, which has no implementation under `src/` — false for
empty or whitespace text and for text equal, trimmed and case-folded, to
one of the degenerate literals; otherwise true exactly when the text holds
at least 30 alphanumeric characters. -/
def looks_meaningful (text : String) : Bool :=
  let t := pyLower (pyStrip text)
  if t = "" ∨ t = "\x7b\x7d" ∨ t = "[]" ∨ t = "null" ∨ t = "none" then false
  else 30 ≤ alnumCount text

/-- A chat message. -/
structure Message where
  role : String
  content : String
deriving DecidableEq, Repr

/-- Modelled from the spec: `complete_with_quality_gate` of the QualityGate
component, which has no implementation under `src/` — call the transport;
if the response fails `looks_meaningful`, append the single corrective
`insist_message` and call once more, returning the second response
regardless of its quality. The transport is modelled as a function of the
call index and the message sequence; the pair returned is the final
response and the number of transport calls made. -/
def complete_with_quality_gate (transport : Nat → List Message → String)
    (messages : List Message) (insist : Message) : String × Nat :=
  let first := transport 0 messages
  if looks_meaningful first then (first, 1)
  else (transport 1 (messages ++ [insist]), 2)

/-! ### Storage: `save_yaml` (`yaml.safe_dump(payload, sort_keys=False,
allow_unicode=False)`) -/

/-- A concrete contract payload used by a witness. -/
def exContractPayload : ContractPayload :=
  { sourceFile := some "contract.pdf"
    elementCount := 2
    elements := [some { etype := some "NarrativeText", text := some "Clause A", pageNumber := some 1 },
                 none] }

/-- A concrete invoice payload used by a witness: one sheet with a charge
row, a metadata row and an empty row. -/
def exInvoicePayload : InvoicePayload :=
  { sourceFile := some "invoice.xlsx"
    sheets := [("Sheet1",
      { columns := ["Qty", "Amount", "Notes"]
        rows := [[("Qty", Value.vstr "3"), ("Amount", Value.vstr "$45.00")],
                 [("Notes", Value.vstr "see attached PO")],
                 []] })] }

/-- A concrete successful token response used by a witness; it omits
`expires_in`. -/
def exTokenResp : TokenResp :=
  { status := 200, text := "", accessToken := some "tok", expiresIn := none }

/-! ### Service construction: the `SAPAICoreClient(...)` call site -/

/-- The keyword-only parameter names accepted by `SAPAICoreClient.__init__`. -/
def sapAICoreClientParams : List String :=
  ["client_id", "client_secret", "auth_url", "api_base", "deployment_id",
   "resource_group", "scope", "chat_completions_path", "request_timeout"]

/-- The keyword argument names `ContractAgentService.__init__` passes to
`SAPAICoreClient`. -/
def serviceInitKwargs : List String :=
  ["client_id", "client_secret", "auth_url", "api_base", "deployment_id",
   "resource_group", "scope", "chat_completions_path", "request_timeout",
   "api_version"]

/-- Result of binding a Python keyword call against a parameter list. -/
inductive BindResult where
  | ok
  | typeError (unexpectedKeyword : String)
deriving DecidableEq, Repr

/-- Python call binding for a keyword-only signature: the first keyword
argument that matches no declared parameter raises `TypeError`. -/
def bindKeywordCall (params passed : List String) : BindResult :=
  match passed.find? (fun k => !(params.contains k)) with
  | some k => .typeError k
  | none => .ok

/-- Constructing `ContractAgentService` binds `serviceInitKwargs` against
`SAPAICoreClient.__init__`. -/
def serviceInitBind : BindResult :=
  bindKeywordCall sapAICoreClientParams serviceInitKwargs

end ContractAgent

namespace ContractAgent

/-! ## Supporting lemmas -/

theorem dropWhile_idem {α : Type} (p : α → Bool) (l : List α) :
    (l.dropWhile p).dropWhile p = l.dropWhile p := by
  induction l with
  | nil => rfl
  | cons a t ih =>
      by_cases h : p a
      · simp [List.dropWhile_cons, h, ih]
      · simp [List.dropWhile_cons, h]

theorem dropWhile_eq_self_of_head {α : Type} (p : α → Bool) (l : List α)
    (h : ∀ x, l.head? = some x → p x = false) : l.dropWhile p = l := by
  cases l with
  | nil => rfl
  | cons a t => simp [List.dropWhile_cons, h a rfl]

theorem pyStripList_idem (l : List Char) : pyStripList (pyStripList l) = pyStripList l := by
  unfold pyStripList
  have hdm : (l.dropWhile Char.isWhitespace).dropWhile Char.isWhitespace
      = l.dropWhile Char.isWhitespace := dropWhile_idem _ l
  have h2 : (((l.dropWhile Char.isWhitespace).reverse.dropWhile Char.isWhitespace).reverse.reverse).dropWhile Char.isWhitespace
      = ((l.dropWhile Char.isWhitespace).reverse.dropWhile Char.isWhitespace).reverse.reverse := by
    rw [List.reverse_reverse]
    exact dropWhile_idem _ _
  have h1 : (((l.dropWhile Char.isWhitespace).reverse.dropWhile Char.isWhitespace).reverse).dropWhile Char.isWhitespace
      = ((l.dropWhile Char.isWhitespace).reverse.dropWhile Char.isWhitespace).reverse := by
    have hsuf : (l.dropWhile Char.isWhitespace).reverse.dropWhile Char.isWhitespace
        <:+ (l.dropWhile Char.isWhitespace).reverse := List.dropWhile_suffix _
    have hpre : ((l.dropWhile Char.isWhitespace).reverse.dropWhile Char.isWhitespace).reverse
        <+: l.dropWhile Char.isWhitespace := by
      apply List.reverse_suffix.mp
      rw [List.reverse_reverse]
      exact hsuf
    apply dropWhile_eq_self_of_head
    intro x hx
    obtain ⟨srest, hs⟩ := hpre
    have hhead : (l.dropWhile Char.isWhitespace).head? = some x := by
      rw [← hs, List.head?_append, hx]
      rfl
    have hm := List.head?_dropWhile_not Char.isWhitespace l
    rw [hhead] at hm
    exact hm
  rw [h1, h2, List.reverse_reverse]

theorem pyStrip_idem (s : String) : pyStrip (pyStrip s) = pyStrip s :=
  congrArg String.mk (pyStripList_idem s.data)

theorem ratAdd_eq (a b : Rat) : ratAdd a b = a + b := by
  rw [ratAdd, Rat.divInt_eq_div]
  push_cast
  conv_rhs => rw [← Rat.num_div_den a, ← Rat.num_div_den b]
  rw [div_add_div _ _ (by positivity) (by positivity)]
  ring_nf

theorem ratSub_eq (a b : Rat) : ratSub a b = a - b := by
  rw [ratSub, Rat.divInt_eq_div]
  push_cast
  conv_rhs => rw [← Rat.num_div_den a, ← Rat.num_div_den b]
  rw [div_sub_div _ _ (by positivity) (by positivity)]
  ring_nf

theorem ratLt_iff (a b : Rat) : ratLt a b = true ↔ a < b := by
  rw [ratLt, decide_eq_true_iff]
  exact Rat.lt_def.symm

theorem numeric_values_len (l : List (String × Value)) :
    ((l.map Prod.snd).filter is_numeric).length = (l.filter (fun kv => is_numeric kv.2)).length := by
  rw [List.filter_map, List.length_map]
  rfl

theorem classify_eq_spec (row : Row) : classify_row row = specClassifyNormalized row := by
  simp only [classify_row, specClassifyNormalized, numericFieldCount]
  by_cases h0 : normalize_fields row = []
  · simp [h0]
  · have hne : (normalize_fields row).isEmpty = false := by
      simp [List.isEmpty_iff, h0]
    simp only [h0, if_neg, hne, Bool.false_eq_true, if_false]
    have hlen := numeric_values_len (normalize_fields row)
    by_cases hz : (((normalize_fields row).map Prod.snd).filter is_numeric) = []
    · have : ((normalize_fields row).filter (fun kv => is_numeric kv.2)).length = 0 := by
        rw [← hlen, hz]; rfl
      simp [hz, this]
    · have hzl : (((normalize_fields row).map Prod.snd).filter is_numeric).length ≠ 0 := by
        simpa [List.length_eq_zero] using hz
      have : ((normalize_fields row).filter (fun kv => is_numeric kv.2)).length ≠ 0 := by
        rw [← hlen]; exact hzl
      rw [if_neg hz, if_neg this]
      rw [hlen]
      cases hc : currencySignal (normalize_fields row) <;>
        cases hk : keywordKeySignal (normalize_fields row) <;>
          cases hv : keywordValueSignal (normalize_fields row) <;> simp

/-! ## Claims -/

/-- C5: the keyword call `SAPAICoreClient(..., api_version=...)` made by
`ContractAgentService.__init__` does not bind: `api_version` is not a
parameter of `SAPAICoreClient.__init__`, so constructing the service raises
`TypeError` before any document can be processed. -/
theorem service_init_api_version_type_error :
    serviceInitBind = BindResult.typeError "api_version" ∧ serviceInitBind ≠ BindResult.ok := by
  constructor
  · rfl
  · decide

/-- C8: `clean_cell` is idempotent — applying it twice yields the same
result as applying it once, across every branch (blank inputs, numeric
parses, non-parsing strings, and non-string passthrough values). -/
theorem clean_cell_idempotent : ∀ v, clean_cell (clean_cell v) = clean_cell v := by
  intro v
  match v with
  | .vint n => rfl
  | .vfloat q => rfl
  | .vbool b => rfl
  | .vnone => rfl
  | .vstr s =>
      simp only [clean_cell]
      by_cases h : pyStrip s = ""
      · have h0 : pyStrip "" = "" := rfl
        simp [h, h0]
      · rw [if_neg h]
        cases hp : pyFloat (stripCommasCurrency (pyStrip s)) with
        | some q =>
            by_cases hq : q.den = 1
            · simp [hq]
            · simp [hq]
        | none =>
            simp only [clean_cell, pyStrip_idem, if_neg h, hp]

/-- C1 (amended): `classify_row` follows the spec's ordered decision rule
with all three signals computed over the *normalized* fields (not the
original ones): empty normalized fields give `empty`; no numeric normalized
value gives `metadata`; a signal or at least two numeric fields give
`charge`; otherwise `possible_charge`. In particular a row with exactly two
numeric fields and no signal is a `charge`, and a row with exactly one
numeric field and no signal is a `possible_charge`. -/
theorem classify_row_decision_rule :
    (∀ row : Row, classify_row row = specClassifyNormalized row) ∧
    (∀ row : Row, numericFieldCount row = 2 → noSignal row = true → classify_row row = "charge") ∧
    (∀ row : Row, numericFieldCount row = 1 → noSignal row = true →
      classify_row row = "possible_charge") := by
  refine ⟨classify_eq_spec, ?_, ?_⟩
  · intro row h2 hs
    rw [classify_eq_spec row]
    have hne : (normalize_fields row).isEmpty = false := by
      rcases hn : normalize_fields row with _ | ⟨kv, rest⟩
      · rw [numericFieldCount, hn] at h2; simp at h2
      · rfl
    rw [noSignal] at hs
    simp only [Bool.not_eq_true', Bool.or_eq_false_iff] at hs
    obtain ⟨⟨hk, hv⟩, hc⟩ := hs
    simp [specClassifyNormalized, hne, h2, hk, hv, hc]
  · intro row h1 hs
    rw [classify_eq_spec row]
    have hne : (normalize_fields row).isEmpty = false := by
      rcases hn : normalize_fields row with _ | ⟨kv, rest⟩
      · rw [numericFieldCount, hn] at h1; simp at h1
      · rfl
    rw [noSignal] at hs
    simp only [Bool.not_eq_true', Bool.or_eq_false_iff] at hs
    obtain ⟨⟨hk, hv⟩, hc⟩ := hs
    simp [specClassifyNormalized, hne, h1, hk, hv, hc]

theorem mem_dictInsert {k : String} {v : Value} {l : List (String × Value)} {q : String × Value} :
    q ∈ dictInsert k v l → q = (k, v) ∨ q ∈ l := by
  induction l with
  | nil =>
      intro h
      simp only [dictInsert, List.mem_singleton] at h
      exact Or.inl h
  | cons kv rest ih =>
      intro h
      by_cases hk : kv.1 = k
      · rw [dictInsert, if_pos hk] at h
        rcases List.mem_cons.mp h with h1 | h2
        · exact Or.inl (by rw [h1, hk])
        · exact Or.inr (List.mem_cons_of_mem _ h2)
      · rw [dictInsert, if_neg hk] at h
        rcases List.mem_cons.mp h with h1 | h2
        · exact Or.inr (h1 ▸ List.mem_cons_self _ _)
        · rcases ih h2 with h3 | h4
          · exact Or.inl h3
          · exact Or.inr (List.mem_cons_of_mem _ h4)

theorem dictInsert_key_mem (k : String) (v : Value) (l : List (String × Value)) :
    ∃ q ∈ dictInsert k v l, q.1 = k := by
  induction l with
  | nil => exact ⟨(k, v), by simp [dictInsert], rfl⟩
  | cons kv rest ih =>
      by_cases hk : kv.1 = k
      · exact ⟨(kv.1, v), by rw [dictInsert, if_pos hk]; exact List.mem_cons_self _ _, hk⟩
      · obtain ⟨q, hq, hq1⟩ := ih
        exact ⟨q, by rw [dictInsert, if_neg hk]; exact List.mem_cons_of_mem _ hq, hq1⟩

theorem dictInsert_key_preserved {k0 : String} (k : String) (v : Value)
    (l : List (String × Value)) :
    (∃ q ∈ l, q.1 = k0) → ∃ q ∈ dictInsert k v l, q.1 = k0 := by
  induction l with
  | nil =>
      rintro ⟨q, hq, _⟩
      cases hq
  | cons kv rest ih =>
      rintro ⟨q, hq, hq1⟩
      by_cases hk : kv.1 = k
      · rw [dictInsert, if_pos hk]
        rcases List.mem_cons.mp hq with h1 | h2
        · exact ⟨(kv.1, v), List.mem_cons_self _ _, by rw [← hq1, h1]⟩
        · exact ⟨q, List.mem_cons_of_mem _ h2, hq1⟩
      · rw [dictInsert, if_neg hk]
        rcases List.mem_cons.mp hq with h1 | h2
        · exact ⟨q, h1 ▸ List.mem_cons_self _ _, hq1⟩
        · obtain ⟨q2, hq2, hq21⟩ := ih ⟨q, h2, hq1⟩
          exact ⟨q2, List.mem_cons_of_mem _ hq2, hq21⟩

theorem normalizeLoop_mem {q : String × Value} :
    ∀ (rest : Row) (acc : List (String × Value)), q ∈ normalizeLoop acc rest →
      q ∈ acc ∨ ∃ kv ∈ rest, keyName kv.1 = q.1 ∧ clean_cell kv.2 = q.2 ∧
        isDropped (clean_cell kv.2) = false := by
  intro rest
  induction rest with
  | nil =>
      intro acc h
      exact Or.inl h
  | cons kv rs ih =>
      intro acc h
      by_cases hd : isDropped (clean_cell kv.2)
      · rw [normalizeLoop, if_pos hd] at h
        rcases ih acc h with h1 | ⟨kv2, hm, hp⟩
        · exact Or.inl h1
        · exact Or.inr ⟨kv2, List.mem_cons_of_mem _ hm, hp⟩
      · rw [normalizeLoop, if_neg hd] at h
        rcases ih _ h with h1 | ⟨kv2, hm, hp⟩
        · rcases mem_dictInsert h1 with h2 | h3
          · refine Or.inr ⟨kv, List.mem_cons_self _ _, ?_, ?_, ?_⟩
            · rw [h2]
            · rw [h2]
            · simpa using hd
          · exact Or.inl h3
        · exact Or.inr ⟨kv2, List.mem_cons_of_mem _ hm, hp⟩

theorem normalizeLoop_key_mono {k0 : String} :
    ∀ (rest : Row) (acc : List (String × Value)), (∃ q ∈ acc, q.1 = k0) →
      ∃ q ∈ normalizeLoop acc rest, q.1 = k0 := by
  intro rest
  induction rest with
  | nil =>
      intro acc h
      exact h
  | cons kv rs ih =>
      intro acc h
      by_cases hd : isDropped (clean_cell kv.2)
      · rw [normalizeLoop, if_pos hd]
        exact ih acc h
      · rw [normalizeLoop, if_neg hd]
        exact ih _ (dictInsert_key_preserved _ _ _ h)

theorem normalizeLoop_key_exists :
    ∀ (rest : Row) (acc : List (String × Value)) (kv : String × Value), kv ∈ rest →
      isDropped (clean_cell kv.2) = false →
      ∃ q ∈ normalizeLoop acc rest, q.1 = keyName kv.1 := by
  intro rest
  induction rest with
  | nil =>
      intro acc kv h
      cases h
  | cons kv0 rs ih =>
      intro acc kv hmem hd
      rcases List.mem_cons.mp hmem with h1 | h2
      · subst h1
        rw [normalizeLoop, if_neg (by simp [hd])]
        exact normalizeLoop_key_mono rs _ (dictInsert_key_mem _ _ _)
      · by_cases hd0 : isDropped (clean_cell kv0.2)
        · rw [normalizeLoop, if_pos hd0]
          exact ih acc kv h2 hd
        · rw [normalizeLoop, if_neg hd0]
          exact ih _ kv h2 hd

/-- C9 (amended): `normalize_fields` applies `clean_cell` to every field and
keeps only non-absent results: every emitted entry is the cleaned value of
an original field under the key rule `keyName`, and every field whose
cleaned value is kept contributes its `keyName` to the result. The key
rule maps only a *missing/empty* key to the literal `column`; a
whitespace-only key is trimmed to the empty string instead. -/
theorem normalize_fields_field_rule :
    (∀ row : Row, ∀ q ∈ normalize_fields row,
      isDropped q.2 = false ∧ ∃ kv ∈ row, keyName kv.1 = q.1 ∧ clean_cell kv.2 = q.2) ∧
    (∀ row : Row, ∀ kv ∈ row, isDropped (clean_cell kv.2) = false →
      ∃ q ∈ normalize_fields row, q.1 = keyName kv.1) ∧
    keyName "" = "column" ∧
    (∀ k : String, k ≠ "" → keyName k = pyStrip k) := by
  refine ⟨?_, ?_, rfl, ?_⟩
  · intro row q hq
    rcases normalizeLoop_mem row [] hq with h | ⟨kv, hkv, h1, h2, h3⟩
    · cases h
    · exact ⟨by rw [← h2]; exact h3, kv, hkv, h1, h2⟩
  · intro row kv h hd
    exact normalizeLoop_key_exists row [] kv h hd
  · intro k hk
    rw [keyName, if_neg hk]

/-- C9 counterexample to the claim as stated: a whitespace-only key is not
mapped to `column` — `str(key).strip() if key else "column"` only treats a
falsy (empty) key specially, so the key `" "` is trimmed to the empty
string. -/
theorem normalize_fields_whitespace_key_counterexample :
    normalize_fields [(" ", Value.vstr "x")] = [("", Value.vstr "x")] ∧
    keyName " " = "" ∧ "" ≠ "column" := by
  refine ⟨by decide, by decide, by decide⟩

/-- C9 witness: the field-rule theorem applied to the concrete row
`[(" ", "x")]` and its emitted entry `("", "x")`. -/
theorem normalize_fields_field_rule_witness :
    isDropped ("", Value.vstr "x").2 = false :=
  ((normalize_fields_field_rule.1 [(" ", Value.vstr "x")] ("", Value.vstr "x")) (by decide)).1

/-- C1 counterexample to the claim as stated: on the row
`[("Amount", " "), ("x", "5")]` the claim's rule (signals over the
*original* fields, whose key `Amount` holds an amount keyword) demands
`charge`, but the code classifies `possible_charge` because the blank
`Amount` field is dropped by normalization before the signals are
computed. -/
theorem classify_row_original_signals_counterexample :
    specClassifyOriginal [("Amount", Value.vstr " "), ("x", Value.vstr "5")] = "charge" ∧
    classify_row [("Amount", Value.vstr " "), ("x", Value.vstr "5")] = "possible_charge" := by
  constructor
  · decide
  · decide

/-- C1 witness: the tie-break rules applied at the concrete rows
`[("A", "10"), ("B", "20")]` (two numeric fields, no signal) and
`[("A", "10")]` (one numeric field, no signal). -/
theorem classify_row_decision_rule_witness :
    classify_row [("A", Value.vstr "10"), ("B", Value.vstr "20")] = "charge" ∧
    classify_row [("A", Value.vstr "10")] = "possible_charge" :=
  ⟨classify_row_decision_rule.2.1 [("A", Value.vstr "10"), ("B", Value.vstr "20")]
      (by decide) (by decide),
   classify_row_decision_rule.2.2 [("A", Value.vstr "10")] (by decide) (by decide)⟩

theorem strTake_length (n : Nat) (s : String) : (strTake n s).length ≤ n := by
  simp only [strTake, String.length, List.length_take]
  exact Nat.min_le_left _ _

theorem clauseStep_length_le (idx : Nat) (e : Option RawElement) (acc : List Clause) :
    (clauseStep idx e acc).length ≤ acc.length + 1 := by
  rw [clauseStep]
  split
  · simp
  · exact Nat.le_succ _

theorem clauseStep_text (idx : Nat) (e : Option RawElement) (acc : List Clause)
    (hacc : ∀ c ∈ acc, c.text.length ≤ 1200) :
    ∀ c ∈ clauseStep idx e acc, c.text.length ≤ 1200 := by
  intro c hc
  rw [clauseStep] at hc
  split at hc
  · rcases List.mem_append.mp hc with h1 | h2
    · exact hacc c h1
    · rw [List.mem_singleton.mp h2, mkClause]
      exact strTake_length _ _
  · exact hacc c hc

theorem clauseLoop_length_le :
    ∀ (els : List (Option RawElement)) (idx : Nat) (acc : List Clause),
      acc.length < 40 → (clauseLoop els idx acc).length ≤ 40 := by
  intro els
  induction els with
  | nil =>
      intro idx acc h
      exact Nat.le_of_lt (Nat.lt_of_lt_of_le h (by norm_num))
  | cons e rest ih =>
      intro idx acc h
      have hstep : (clauseStep idx e acc).length ≤ 40 :=
        Nat.le_trans (clauseStep_length_le idx e acc) h
      by_cases h40 : 40 ≤ (clauseStep idx e acc).length
      · rw [clauseLoop, if_pos h40]
        exact hstep
      · rw [clauseLoop, if_neg h40]
        exact ih _ _ (Nat.lt_of_not_le h40)

theorem clauseLoop_text :
    ∀ (els : List (Option RawElement)) (idx : Nat) (acc : List Clause),
      (∀ c ∈ acc, c.text.length ≤ 1200) →
      ∀ c ∈ clauseLoop els idx acc, c.text.length ≤ 1200 := by
  intro els
  induction els with
  | nil =>
      intro idx acc hacc
      exact hacc
  | cons e rest ih =>
      intro idx acc hacc
      by_cases h40 : 40 ≤ (clauseStep idx e acc).length
      · rw [clauseLoop, if_pos h40]
        exact clauseStep_text idx e acc hacc
      · rw [clauseLoop, if_neg h40]
        exact ih _ _ (clauseStep_text idx e acc hacc)

theorem length_filterMap_if {α β : Type} (q : α → Bool) (g : Nat × α → β) :
    ∀ (l : List α) (n : Nat),
      ((List.enumFrom n l).filterMap (fun p => if q p.2 then some (g p) else none)).length
        = (l.filter q).length := by
  intro l
  induction l with
  | nil => intro n; rfl
  | cons a t ih =>
      intro n
      show ((List.filterMap _ ((n, a) :: List.enumFrom (n + 1) t))).length = _
      rw [List.filterMap_cons, List.filter_cons]
      by_cases hq : q a
      · simp only [hq, if_true, List.length_cons, ih, if_pos]
      · simp only [hq, if_false, ih, Bool.false_eq_true]

theorem sheetChargeItems_length (name : String) (rows : List Row) :
    (sheetChargeItems name rows).length = (rows.filter isChargeRow).length := by
  rw [sheetChargeItems, enum1]
  exact length_filterMap_if isChargeRow _ rows 1

theorem sheetMetaItems_length (name : String) (rows : List Row) :
    (sheetMetaItems name rows).length = (rows.filter isMetadataRow).length := by
  rw [sheetMetaItems, enum1]
  exact length_filterMap_if isMetadataRow _ rows 1

theorem chargeItemsAll_length (p : InvoicePayload) :
    (chargeItemsAll p).length = countRows p isChargeRow := by
  rw [chargeItemsAll, List.length_flatMap, countRows]
  congr 1
  apply List.map_congr_left
  intro s _
  exact sheetChargeItems_length s.1 s.2.rows

theorem metaItemsAll_length (p : InvoicePayload) :
    (metaItemsAll p).length = countRows p isMetadataRow := by
  rw [metaItemsAll, List.length_flatMap, countRows]
  congr 1
  apply List.map_congr_left
  intro s _
  exact sheetMetaItems_length s.1 s.2.rows

theorem sheetChargeItems_filter_cat (cat : String)
    (hc : cat = "charge" ∨ cat = "possible_charge") (name : String) (rows : List Row) :
    ((sheetChargeItems name rows).filter (fun e => e.category = cat)).length
      = (rows.filter (fun r => decide (classify_row r = cat))).length := by
  rw [sheetChargeItems, enum1]
  suffices h : ∀ (l : List Row) (n : Nat),
      (((List.enumFrom n l).filterMap (fun p =>
          if isChargeRow p.2 then some (mkChargeItem name p.1 p.2) else none)).filter
        (fun e => e.category = cat)).length
      = (l.filter (fun r => decide (classify_row r = cat))).length from h rows 1
  intro l
  induction l with
  | nil => intro n; rfl
  | cons a t ih =>
      intro n
      show ((List.filterMap _ ((n, a) :: List.enumFrom (n + 1) t)).filter _).length = _
      rw [List.filterMap_cons, List.filter_cons]
      by_cases hq : isChargeRow a
      · simp only [hq, if_true]
        rw [List.filter_cons]
        have hcat : (mkChargeItem name n a).category = classify_row a := rfl
        by_cases heq : classify_row a = cat
        · simp [hcat, heq, ih]
        · simp [hcat, heq, ih]
      · have hne : classify_row a ≠ cat := by
          intro he
          apply hq
          rw [isChargeRow, he]
          rcases hc with h1 | h1 <;> simp [h1]
        simp [hq, hne, ih]

theorem chargeItemsAll_filter_cat (cat : String)
    (hc : cat = "charge" ∨ cat = "possible_charge") (p : InvoicePayload) :
    ((chargeItemsAll p).filter (fun e => e.category = cat)).length
      = countRows p (fun r => decide (classify_row r = cat)) := by
  rw [chargeItemsAll, List.filter_flatMap, List.length_flatMap, countRows]
  congr 1
  apply List.map_congr_left
  intro s _
  exact sheetChargeItems_filter_cat cat hc s.1 s.2.rows

theorem chargeItemsAll_compact_le (p : InvoicePayload) :
    ∀ e ∈ chargeItemsAll p, ∀ s, e.compact = some s → s.length ≤ 400 := by
  intro e he s hs
  obtain ⟨sh, _, hmem⟩ := List.mem_flatMap.mp he
  obtain ⟨pr, _, hf⟩ := List.mem_filterMap.mp hmem
  split at hf
  · have he2 : mkChargeItem sh.1 pr.1 pr.2 = e := Option.some.inj hf
    rw [← he2, mkChargeItem] at hs
    simp only at hs
    rw [mkCompact] at hs
    split at hs
    · cases hs
    · rw [← Option.some.inj hs]
      exact strTake_length _ _
  · cases hf

theorem metaItemsAll_text_le (p : InvoicePayload) :
    ∀ m ∈ metaItemsAll p, m.text.length ≤ 400 := by
  intro m hm
  obtain ⟨sh, _, hmem⟩ := List.mem_flatMap.mp hm
  obtain ⟨pr, _, hf⟩ := List.mem_filterMap.mp hmem
  split at hf
  · have he2 : mkMetaItem sh.1 pr.1 pr.2 = m := Option.some.inj hf
    rw [← he2, mkMetaItem]
    simp only
    rw [mkCompact]
    split
    · simp
    · simp only [Option.getD_some]
      exact strTake_length _ _
  · cases hf

/-- C4: the emitted summary lists obey their caps — at most 160 charge
items, 40 metadata-preview entries and 40 clauses, each clause text at most
1200 characters and each compact string at most 400 — while the reported
counts (`charge_item_count`, `metadata_item_count`, the per-category
breakdown, and `segment_count`, the latter under the parser's guarantee
`element_count = len(elements)`) equal the full pre-truncation tallies over
all rows and elements. -/
theorem summary_caps_and_counts (cp : ContractPayload) (ip : InvoicePayload)
    (hseg : cp.elementCount = cp.elements.length) :
    (contract_summary cp).clauses.length ≤ 40 ∧
    (∀ c ∈ (contract_summary cp).clauses, c.text.length ≤ 1200) ∧
    (contract_summary cp).segmentCount = cp.elements.length ∧
    (invoice_summary ip).chargeItems.length ≤ 160 ∧
    (invoice_summary ip).metadataPreview.length ≤ 40 ∧
    (∀ e ∈ (invoice_summary ip).chargeItems, ∀ s, e.compact = some s → s.length ≤ 400) ∧
    (∀ m ∈ (invoice_summary ip).metadataPreview, m.text.length ≤ 400) ∧
    (invoice_summary ip).chargeItemCount = countRows ip isChargeRow ∧
    (invoice_summary ip).metadataItemCount = countRows ip isMetadataRow ∧
    (invoice_summary ip).breakdownCharge
      = countRows ip (fun r => decide (classify_row r = "charge")) ∧
    (invoice_summary ip).breakdownPossible
      = countRows ip (fun r => decide (classify_row r = "possible_charge")) := by
  refine ⟨?_, ?_, ?_, ?_, ?_, ?_, ?_, ?_, ?_, ?_, ?_⟩
  · exact clauseLoop_length_le cp.elements 1 [] (by norm_num)
  · exact clauseLoop_text cp.elements 1 [] (by intro c hc; cases hc)
  · rw [contract_summary]
    exact hseg
  · show ((chargeItemsAll ip).take 160).length ≤ 160
    rw [List.length_take]
    exact Nat.min_le_left _ _
  · show ((metaItemsAll ip).take 40).length ≤ 40
    rw [List.length_take]
    exact Nat.min_le_left _ _
  · intro e he
    exact chargeItemsAll_compact_le ip e (List.take_subset _ _ he)
  · intro m hm
    exact metaItemsAll_text_le ip m (List.take_subset _ _ hm)
  · exact chargeItemsAll_length ip
  · exact metaItemsAll_length ip
  · exact chargeItemsAll_filter_cat "charge" (Or.inl rfl) ip
  · exact chargeItemsAll_filter_cat "possible_charge" (Or.inr rfl) ip

/-- C4 witness: the caps-and-counts theorem applied to the concrete
payloads, discharging the `element_count` hypothesis by evaluation. -/
theorem summary_caps_and_counts_witness :
    (invoice_summary exInvoicePayload).chargeItemCount
        = countRows exInvoicePayload isChargeRow ∧
    (contract_summary exContractPayload).segmentCount
        = exContractPayload.elements.length :=
  ⟨(summary_caps_and_counts exContractPayload exInvoicePayload rfl).2.2.2.2.2.2.2.1,
   (summary_caps_and_counts exContractPayload exInvoicePayload rfl).2.2.1⟩

theorem chatAttempt_retryable (o : HttpOutcome) (e : ClientError)
    (h : chatAttempt o = Except.error e) : retryable e = true := by
  cases o with
  | exn m =>
      simp only [chatAttempt] at h
      injection h with h2
      subst h2
      rfl
  | resp r =>
      simp only [chatAttempt] at h
      split at h
      · injection h with h2
        subst h2
        rfl
      · split at h
        · injection h with h2
          subst h2
          rfl
        · split at h
          · injection h with h2
            subst h2
            rfl
          · split at h
            · injection h with h2
              subst h2
              rfl
            · exact Except.noConfusion h

/-- C2: a `chat_completion` call whose underlying HTTP/parse step always
fails performs exactly 3 attempts, retries on both transport failures and
the client's own error kind, and surfaces the final attempt's error
unchanged (`reraise=True`). -/
theorem chat_completion_retries_three (outcomes : Nat → HttpOutcome)
    (hfail : ∀ i, isErr (chatAttempt (outcomes i)) = true) :
    chat_completion outcomes = (chatAttempt (outcomes 2), 3) ∧
    (∀ m, retryable (ClientError.requestException m) = true ∧
      retryable (ClientError.aiCoreError m) = true) := by
  constructor
  · have h0 := hfail 0
    have h1 := hfail 1
    have h2 := hfail 2
    rw [chat_completion]
    cases hc0 : chatAttempt (outcomes 0) with
    | ok s =>
        rw [hc0] at h0
        exact absurd h0 (by simp [isErr])
    | error e0 =>
        cases hc1 : chatAttempt (outcomes 1) with
        | ok s =>
            rw [hc1] at h1
            exact absurd h1 (by simp [isErr])
        | error e1 =>
            cases hc2 : chatAttempt (outcomes 2) with
            | ok s =>
                rw [hc2] at h2
                exact absurd h2 (by simp [isErr])
            | error e2 =>
                have hr0 := chatAttempt_retryable _ _ hc0
                have hr1 := chatAttempt_retryable _ _ hc1
                rw [show (3 : Nat) = 2 + 1 from rfl, retryLoop]
                simp only [hc0]
                rw [if_pos (show retryable e0 = true ∧ 0 < 2 from ⟨hr0, by norm_num⟩)]
                rw [show (2 : Nat) = 1 + 1 from rfl, retryLoop]
                simp only [hc1]
                rw [if_pos (show retryable e1 = true ∧ 0 < 1 from ⟨hr1, by norm_num⟩)]
                rw [show (1 : Nat) = 0 + 1 from rfl, retryLoop]
                simp only [hc2]
                rw [if_neg (show ¬(retryable e2 = true ∧ 0 < 0) from by simp)]
  · intro m
    exact ⟨rfl, rfl⟩

/-- C2 witness: an always-failing transport at a concrete outcome stream. -/
theorem chat_completion_retries_three_witness :
    chat_completion (fun _ => HttpOutcome.exn "boom")
      = (Except.error (ClientError.requestException "boom"), 3) := by
  have h := (chat_completion_retries_three (fun _ => HttpOutcome.exn "boom") (fun _ => rfl)).1
  simpa [chatAttempt] using h

/-- C3: `_get_token` reuses the cached token without an exchange whenever
the stored lease is more than 30 seconds from expiry; starting from an
unauthenticated state, a successful exchange installs a lease expiring at
`now + expires_in` (600 when the provider omits it), and a second call more
than 30 seconds before that expiry performs no exchange — exactly one
exchange in total across the two calls. -/
theorem get_token_lease_reuse :
    (∀ (st : TokenState) (now : Rat) (http : TokenHttp),
      tokenTruthy st.token = true → ratLt now (ratSub st.tokenExpiry 30) = true →
      _get_token st now http = (Except.ok (st.token.getD ""), st, false)) ∧
    (∀ (st : TokenState) (now1 now2 : Rat) (r : TokenResp) (t : String) (http2 : TokenHttp),
      st.token = none → r.status = 200 → r.accessToken = some t → t ≠ "" →
      ((_get_token st now1 (TokenHttp.resp r)).2.2 = true ∧
       (_get_token st now1 (TokenHttp.resp r)).2.1.tokenExpiry
          = ratAdd now1 (r.expiresIn.getD 600) ∧
       (ratLt now2 (ratSub (_get_token st now1 (TokenHttp.resp r)).2.1.tokenExpiry 30) = true →
         (_get_token (_get_token st now1 (TokenHttp.resp r)).2.1 now2 http2).2.2 = false))) ∧
    (∀ (st : TokenState) (now1 : Rat) (r : TokenResp) (t : String),
      st.token = none → r.status = 200 → r.accessToken = some t → t ≠ "" →
      r.expiresIn = none →
      (_get_token st now1 (TokenHttp.resp r)).2.1.tokenExpiry = ratAdd now1 600) := by
  have key : ∀ (st : TokenState) (now1 : Rat) (r : TokenResp) (t : String),
      st.token = none → r.status = 200 → r.accessToken = some t → t ≠ "" →
      _get_token st now1 (TokenHttp.resp r)
        = (Except.ok t, { token := some t, tokenExpiry := ratAdd now1 (r.expiresIn.getD 600) },
           true) := by
    intro st now1 r t hn hs ht htne
    rw [_get_token.eq_def, if_neg (by simp [hn, tokenTruthy])]
    simp [hs, ht, htne]
  refine ⟨?_, ?_, ?_⟩
  · intro st now http h1 h2
    rw [_get_token.eq_def, if_pos ⟨h1, h2⟩]
  · intro st now1 now2 r t http2 hn hs ht htne
    rw [key st now1 r t hn hs ht htne]
    refine ⟨rfl, rfl, ?_⟩
    intro hlt
    rw [_get_token.eq_def, if_pos ⟨by simpa [tokenTruthy] using htne, hlt⟩]
  · intro st now1 r t hn hs ht htne hnone
    rw [key st now1 r t hn hs ht htne, hnone]
    rfl

/-- C3 witness: one refresh from the unauthenticated state installs a lease
expiring at `0 + 600`; a second call at time 100 (more than 30s before
expiry) performs no exchange. -/
theorem get_token_lease_reuse_witness :
    (_get_token { token := none, tokenExpiry := 0 } 0 (TokenHttp.resp exTokenResp)).2.2 = true ∧
    (_get_token (_get_token { token := none, tokenExpiry := 0 } 0
        (TokenHttp.resp exTokenResp)).2.1 100 (TokenHttp.exn "net")).2.2 = false :=
  ⟨(get_token_lease_reuse.2.1 { token := none, tokenExpiry := 0 } 0 100 exTokenResp "tok"
      (TokenHttp.exn "net") rfl rfl rfl (by decide)).1,
   (get_token_lease_reuse.2.1 { token := none, tokenExpiry := 0 } 0 100 exTokenResp "tok"
      (TokenHttp.exn "net") rfl rfl rfl (by decide)).2.2 (by decide)⟩

/-- C10: when the exchange actually runs and fails — non-200 status, or a
200 response with a missing or empty `access_token` — `_get_token` raises
the client's authentication error and leaves the stored lease exactly as it
was. -/
theorem get_token_failure_state_unchanged (st : TokenState) (now : Rat) (r : TokenResp)
    (hnc : ¬(tokenTruthy st.token = true ∧ ratLt now (ratSub st.tokenExpiry 30) = true))
    (hfail : r.status ≠ 200 ∨ r.accessToken = none ∨ r.accessToken = some "") :
    isAuthError (_get_token st now (TokenHttp.resp r)).1 = true ∧
    (_get_token st now (TokenHttp.resp r)).2 = (st, true) := by
  rw [_get_token.eq_def, if_neg hnc]
  by_cases hs : r.status ≠ 200
  · simp [hs, isAuthError]
  · rcases hfail with h | h | h
    · exact absurd h hs
    · simp [hs, h, isAuthError]
    · simp [hs, h, isAuthError]

/-- C10 witness: a 500 response against a stale lease leaves the stored
lease untouched. -/
theorem get_token_failure_state_unchanged_witness :
    (_get_token { token := some "old", tokenExpiry := 10 } 100
        (TokenHttp.resp { status := 500, text := "err", accessToken := none, expiresIn := none })).2
      = ({ token := some "old", tokenExpiry := 10 }, true) :=
  (get_token_failure_state_unchanged { token := some "old", tokenExpiry := 10 } 100
    { status := 500, text := "err", accessToken := none, expiresIn := none }
    (by decide) (Or.inl (by decide))).2

/-- C6 (spec-modelled): `looks_meaningful` is false exactly on blank or
degenerate text or text with fewer than 30 alphanumeric characters; and
with two non-meaningful responses, `complete_with_quality_gate` makes
exactly 2 transport calls, appending the single corrective message before
the second, and returns the second response rather than raising. -/
theorem quality_gate_two_attempts :
    (∀ text : String, looks_meaningful text = true ↔
      (¬ pyLower (pyStrip text) ∈ ["", "\x7b\x7d", "[]", "null", "none"] ∧
        30 ≤ alnumCount text)) ∧
    (∀ (transport : Nat → List Message → String) (messages : List Message) (insist : Message),
      looks_meaningful (transport 0 messages) = false →
      looks_meaningful (transport 1 (messages ++ [insist])) = false →
      complete_with_quality_gate transport messages insist
        = (transport 1 (messages ++ [insist]), 2)) := by
  constructor
  · intro text
    simp only [looks_meaningful]
    split
    · rename_i h
      simp [h]
    · rename_i h
      simp only [List.mem_cons, List.not_mem_nil, or_false] at h ⊢
      simp [h]
  · intro transport messages insist h1 _h2
    simp [complete_with_quality_gate, h1]

/-- C6 witness: the transport that always answers `"ok"` (2 alphanumeric
characters, not meaningful) is called exactly twice and its second answer
is returned. -/
theorem quality_gate_two_attempts_witness :
    complete_with_quality_gate (fun _ _ => "ok") []
      { role := "system", content := "Respond with substantive content." } = ("ok", 2) := by
  have h := quality_gate_two_attempts.2 (fun _ _ => "ok") []
    { role := "system", content := "Respond with substantive content." } (by decide) (by decide)
  simpa using h

end ContractAgent
